import Mathlib

/-!
Verification development for the prettier-sql core: a shallow embedding of
`src/core/Formatter.ts` and of the option validation in the public `format`
entry point, together with proofs and refutations of the specified
properties.  Strings are modelled as `List Char`; JavaScript string
operations (`trim`, `trimEnd`, `toUpperCase`, …) are modelled character-wise.

Components of the repository that are not part of the provided sources
(`Tokenizer`, `Indentation`, `InlineBlock`, `Params`, the `token.ts`
predicates and the `trimSpacesEnd` utility) are modelled from the
specification, as indicated on each definition.
-/

/-- JavaScript whitespace (the characters matched by `\s` that can occur in
our setting): space, tab, newline, carriage return, vertical tab, form feed. -/
def isWs (c : Char) : Bool :=
  c = ' ' || c = '\t' || c = '\n' || c = '\x0d' || c = '\x0b' || c = '\x0c'

/-- Characters removed by `trimSpacesEnd` (`/[\t ]+$/u`): space and tab. -/
def isSpTab (c : Char) : Bool :=
  c = ' ' || c = '\t'

/-- Modelled from the spec: the `trimSpacesEnd` utility of `src/utils`
(not in the provided sources): remove trailing spaces and tabs. -/
def trimSpacesEnd (l : List Char) : List Char :=
  (l.reverse.dropWhile isSpTab).reverse

/-- JavaScript `String.prototype.trimEnd`: remove trailing whitespace. -/
def jsTrimEnd (l : List Char) : List Char :=
  (l.reverse.dropWhile isWs).reverse

/-- JavaScript `String.prototype.trimStart`: remove leading whitespace. -/
def jsTrimStart (l : List Char) : List Char :=
  l.dropWhile isWs

/-- JavaScript `String.prototype.trim`: remove whitespace at both ends. -/
def jsTrim (l : List Char) : List Char :=
  jsTrimStart (jsTrimEnd l)

/-- Remove every whitespace character of a string (used to compare the
non-whitespace content of input and output). -/
def stripWs (l : List Char) : List Char :=
  l.filter (fun c => !(isWs c))

/-- Token types, from `src/core/tokenTypes` as enumerated by the spec. -/
inductive TokenType where
  | WHITESPACE
  | WORD
  | STRING
  | RESERVED
  | RESERVED_TOP_LEVEL
  | RESERVED_TOP_LEVEL_NO_INDENT
  | RESERVED_NEWLINE
  | OPERATOR
  | OPEN_PAREN
  | CLOSE_PAREN
  | LINE_COMMENT
  | BLOCK_COMMENT
  | PLACEHOLDER
  | NUMBER
  | PUNCTUATION
deriving DecidableEq, Repr

/-- A token: type, exact source lexeme, preceding whitespace run and, for
placeholders, the extracted key. -/
structure Token where
  type : TokenType
  value : List Char
  whitespaceBefore : List Char
  key : Option (List Char) := none
deriving DecidableEq, Repr

/-- Uppercase a lexeme character-wise (JS `toUpperCase` on ASCII). -/
def upperStr (l : List Char) : List Char :=
  l.map Char.toUpper

/-- Lowercase a lexeme character-wise (JS `toLowerCase` on ASCII). -/
def lowerStr (l : List Char) : List Char :=
  l.map Char.toLower

/-- Convert a string literal to the character-list representation. -/
def str (s : String) : List Char := s.toList

/-- Identifier-continuing characters (letters, digits, `_`, `$`). -/
def isWordChar (c : Char) : Bool :=
  c.isAlphanum || c = '_' || c = '$'

/-- Case-insensitive prefix test: does the input start with the given
uppercase keyword? -/
def ciStartsWith : List Char → List Char → Bool
  | [], _ => true
  | _ :: _, [] => false
  | k :: ks, c :: cs => k = c.toUpper && ciStartsWith ks cs

/-- Modelled from the spec: whole-word check after a reserved-keyword match
(the trailing character must not be identifier-continuing). -/
def boundaryOk (rest : List Char) : Bool :=
  match rest with
  | [] => true
  | c :: _ => !isWordChar c

/-- Try to match one keyword of the list (already sorted longest-first)
at the start of the input; returns the consumed lexeme (original case)
and the remaining input. -/
def lexKeyword (kws : List (List Char)) (input : List Char) :
    Option (List Char × List Char) :=
  match kws with
  | [] => none
  | k :: ks =>
    if ciStartsWith k input && boundaryOk (input.drop k.length) && !k.isEmpty then
      some (input.take k.length, input.drop k.length)
    else lexKeyword ks input

/-- Modelled from the spec: standard-SQL top-level reserved keywords
(dialect tables are not in the provided sources), longest first. -/
def topLevelKeywords : List (List Char) :=
  [str "INSERT INTO", str "GROUP BY", str "ORDER BY", str "HAVING",
   str "SELECT", str "VALUES", str "UPDATE", str "WHERE", str "LIMIT",
   str "FROM", str "SET"]

/-- Modelled from the spec: top-level-no-indent keywords, longest first. -/
def topLevelNoIndentKeywords : List (List Char) :=
  [str "INTERSECT", str "UNION ALL", str "EXCEPT", str "UNION"]

/-- Modelled from the spec: newline-reserved keywords, longest first. -/
def newlineKeywords : List (List Char) :=
  [str "INNER JOIN", str "RIGHT JOIN", str "CROSS JOIN", str "LEFT JOIN",
   str "JOIN", str "AND", str "XOR", str "OR"]

/-- Modelled from the spec: plain reserved keywords, longest first. -/
def plainReservedKeywords : List (List Char) :=
  [str "BETWEEN", str "CASE", str "WHEN", str "THEN", str "ELSE",
   str "NULL", str "END", str "NOT", str "AS", str "IN", str "IS",
   str "ON"]

/-- Scan the body of a block comment up to and including the closing star
slash; an unterminated comment consumes the rest of the input. -/
def findBlockEnd : List Char → List Char × List Char
  | [] => ([], [])
  | '*' :: '/' :: rest => (['*', '/'], rest)
  | c :: rest =>
    let (v, r) := findBlockEnd rest
    (c :: v, r)

/-- Scan the body of a quoted lexeme delimited by quote character `q`,
treating a doubled `q` as an escape; an unterminated lexeme consumes the
rest of the input.  Returns the consumed body (including the closing
quote) and the remaining input. -/
def quotedBody (q : Char) : List Char → List Char × List Char
  | [] => ([], [])
  | c :: rest =>
    if c = q then
      match rest with
      | [] => ([c], [])
      | c2 :: rest2 =>
        if c2 = q then
          let (v, r) := quotedBody q rest2
          (c :: c2 :: v, r)
        else ([c], rest)
    else
      let (v, r) := quotedBody q rest
      (c :: v, r)

/-- Modelled from the spec: line comment lexer (`--` up to end of line). -/
def lexLineComment (input : List Char) : Option (List Char × List Char) :=
  if input.take 2 = ['-', '-'] then
    let body := (input.drop 2).takeWhile (fun c => c ≠ '\n')
    some (['-', '-'] ++ body, (input.drop 2).dropWhile (fun c => c ≠ '\n'))
  else none

/-- Modelled from the spec: block comment lexer (slash-star to star-slash). -/
def lexBlockComment (input : List Char) : Option (List Char × List Char) :=
  if input.take 2 = ['/', '*'] then
    let (v, r) := findBlockEnd (input.drop 2)
    some (['/', '*'] ++ v, r)
  else none

/-- Modelled from the spec: quoted lexeme lexer for quote character `q`. -/
def lexQuoted (q : Char) (input : List Char) : Option (List Char × List Char) :=
  match input with
  | [] => none
  | c :: rest =>
    if c = q then
      let (v, r) := quotedBody q rest
      some (c :: v, r)
    else none

/-- Modelled from the spec: placeholder lexer (`?`, `?1`, `:name`, `@var`);
returns lexeme, extracted key and remaining input. -/
def lexPlaceholder (input : List Char) :
    Option (List Char × Option (List Char) × List Char) :=
  match input with
  | '?' :: rest =>
    let ds := rest.takeWhile Char.isDigit
    some ('?' :: ds, if ds.isEmpty then none else some ds, rest.drop ds.length)
  | ':' :: rest =>
    let w := rest.takeWhile isWordChar
    if w.isEmpty then none else some (':' :: w, some w, rest.drop w.length)
  | '@' :: rest =>
    let w := rest.takeWhile isWordChar
    if w.isEmpty then none else some ('@' :: w, some w, rest.drop w.length)
  | _ => none

/-- Modelled from the spec: number lexer (digits with optional decimals). -/
def lexNumber (input : List Char) : Option (List Char × List Char) :=
  let ds := input.takeWhile Char.isDigit
  if ds.isEmpty then none
  else
    match input.drop ds.length with
    | '.' :: r2 =>
      let fs := r2.takeWhile Char.isDigit
      if fs.isEmpty then some (ds, input.drop ds.length)
      else some (ds ++ '.' :: fs, r2.drop fs.length)
    | r => some (ds, r)

/-- Modelled from the spec: word lexer (identifier-continuing run). -/
def lexWord (input : List Char) : Option (List Char × List Char) :=
  let w := input.takeWhile isWordChar
  if w.isEmpty then none else some (w, input.drop w.length)

/-- Modelled from the spec: operator lexemes, longest first. -/
def operatorLexemes : List (List Char) :=
  [str "<>", str "<=", str ">=", str "!=", str ":=", str "::", str "||",
   str "<", str ">", str "=", str "+", str "-", str "*", str "/",
   str "%", str "!"]

/-- Modelled from the spec: operator lexer (first matching lexeme wins). -/
def lexOperator (input : List Char) : Option (List Char × List Char) :=
  match operatorLexemes.find? (fun op => input.take op.length = op) with
  | some op => some (op, input.drop op.length)
  | none => none

/-- Modelled from the spec (§4.2): classify and consume one token at the
start of a non-empty, whitespace-free input, trying the lexers in the
fixed priority order; the single-character punctuation fallback makes the
scan total.  Returns type, lexeme, optional placeholder key, rest. -/
def lexOne (input : List Char) :
    TokenType × List Char × Option (List Char) × List Char :=
  match lexLineComment input with
  | some (v, r) => (TokenType.LINE_COMMENT, v, none, r)
  | none =>
  match lexBlockComment input with
  | some (v, r) => (TokenType.BLOCK_COMMENT, v, none, r)
  | none =>
  match lexQuoted '\'' input with
  | some (v, r) => (TokenType.STRING, v, none, r)
  | none =>
  match lexQuoted '"' input with
  | some (v, r) => (TokenType.WORD, v, none, r)
  | none =>
  match input with
  | '(' :: r => (TokenType.OPEN_PAREN, ['('], none, r)
  | ')' :: r => (TokenType.CLOSE_PAREN, [')'], none, r)
  | _ =>
  match lexPlaceholder input with
  | some (v, k, r) => (TokenType.PLACEHOLDER, v, k, r)
  | none =>
  match lexNumber input with
  | some (v, r) => (TokenType.NUMBER, v, none, r)
  | none =>
  match lexKeyword topLevelKeywords input with
  | some (v, r) => (TokenType.RESERVED_TOP_LEVEL, v, none, r)
  | none =>
  match lexKeyword topLevelNoIndentKeywords input with
  | some (v, r) => (TokenType.RESERVED_TOP_LEVEL_NO_INDENT, v, none, r)
  | none =>
  match lexKeyword newlineKeywords input with
  | some (v, r) => (TokenType.RESERVED_NEWLINE, v, none, r)
  | none =>
  match lexKeyword plainReservedKeywords input with
  | some (v, r) => (TokenType.RESERVED, v, none, r)
  | none =>
  match lexWord input with
  | some (v, r) => (TokenType.WORD, v, none, r)
  | none =>
  match lexOperator input with
  | some (v, r) => (TokenType.OPERATOR, v, none, r)
  | none =>
  match input with
  | c :: r => (TokenType.PUNCTUATION, [c], none, r)
  | [] => (TokenType.PUNCTUATION, [], none, [])

/-- Modelled from the spec (§4.2): fuelled tokenizer loop; each step
absorbs the leading whitespace run into the next token's
`whitespaceBefore` and consumes one token. -/
def tokenizeAux : Nat → List Char → List Token
  | 0, _ => []
  | fuel + 1, input =>
    let ws := input.takeWhile isWs
    let rest := input.drop ws.length
    match rest with
    | [] => []
    | _ =>
      let (tt, v, k, r) := lexOne rest
      { type := tt, value := v, whitespaceBefore := ws, key := k } ::
        tokenizeAux fuel r

/-- Modelled from the spec: `tokenize` for the standard-SQL dialect. -/
def tokenize (s : List Char) : List Token :=
  tokenizeAux (s.length + 1) s

/-- Indentation frame tags, modelled from the spec (§4.3): `Indentation`
is not in the provided sources. -/
inductive IndentKind where
  | TOP_LEVEL
  | BLOCK
deriving DecidableEq, Repr

/-- Parameter store contents, modelled from the spec (§4.5): `Params` is
not in the provided sources.  Only the no-params pass-through is exercised
by the claims; the `MissingParameter` failure path is not modelled and a
missing entry falls back to the placeholder's own value. -/
inductive ParamItems where
  | positional (xs : List (List Char))
  | named (m : List (List Char × List Char))
deriving DecidableEq, Repr

/-- The configuration fields read by `Formatter.ts` (`FormatOptions`
restricted to the fields the shown dispatch table consumes). -/
structure FormatConfig where
  indent : List Char := str "  "
  uppercase : Bool := true
  lineWidth : Nat := 50
  linesBetweenQueries : Nat := 1
  trailingNewline : Bool := false
  params : Option ParamItems := none

/-- The default configuration (after defaulting in the public entry). -/
def defaultConfig : FormatConfig := {}

/-- The per-call mutable state of the formatter engine: indentation stack
(head is the top), inline-block level, previous-reserved-token latch and
positional-parameter cursor. -/
structure FmtState where
  indentation : List IndentKind := []
  inlineLevel : Nat := 0
  prevReserved : Option Token := none
  paramIdx : Nat := 0

/-- The initial formatter state of one `format()` call. -/
def initState : FmtState := {}

/-- Modelled from the spec (§4.3): `getIndent` repeats the indent unit
once per stack frame. -/
def getIndent (cfg : FormatConfig) (st : FmtState) : List Char :=
  (List.replicate st.indentation.length cfg.indent).flatten

/-- Modelled from the spec (§4.3): push a top-level frame. -/
def increaseTopLevel (st : FmtState) : FmtState :=
  { st with indentation := IndentKind.TOP_LEVEL :: st.indentation }

/-- Modelled from the spec (§4.3): push a block frame. -/
def increaseBlockLevel (st : FmtState) : FmtState :=
  { st with indentation := IndentKind.BLOCK :: st.indentation }

/-- Modelled from the spec (§4.3): pop a frame only when the top frame is
top-level; a no-op otherwise. -/
def decreaseTopLevel (st : FmtState) : FmtState :=
  match st.indentation with
  | IndentKind.TOP_LEVEL :: rest => { st with indentation := rest }
  | _ => st

/-- Modelled from the spec (§4.3): pop one frame of any tag. -/
def decreaseBlockLevel (st : FmtState) : FmtState :=
  { st with indentation := st.indentation.tail }

/-- Modelled from the spec (§4.4): inline-block look-ahead from an opening
parenthesis, summing lexeme lengths against the budget; top-level
keywords, exhausting the budget, or end-of-stream disqualify. -/
def inlineScan (budget : Nat) : List Token → Nat → Nat → Bool
  | [], _, _ => false
  | t :: ts, len, depth =>
    let len' := len + t.value.length
    if budget < len' then false
    else
      match t.type with
      | TokenType.OPEN_PAREN => inlineScan budget ts len' (depth + 1)
      | TokenType.CLOSE_PAREN =>
        if depth = 1 then true else inlineScan budget ts len' (depth - 1)
      | TokenType.RESERVED_TOP_LEVEL => false
      | TokenType.RESERVED_TOP_LEVEL_NO_INDENT => false
      | _ => inlineScan budget ts len' depth

/-- Modelled from the spec (§4.4): at an opening parenthesis, increment the
level when already active, otherwise activate when the look-ahead finds a
matching close within the budget `lineWidth - 2`. -/
def beginIfPossible (cfg : FormatConfig) (tokens : List Token) (index : Nat)
    (level : Nat) : Nat :=
  if level > 0 then level + 1
  else if inlineScan (cfg.lineWidth - 2) (tokens.drop index) 0 0 then 1
  else 0

/-- `tokenLookBehind(n)`: `this.tokens[this.index - n]`, `undefined` when
the index would be negative. -/
def tokenLookBehind (tokens : List Token) (index n : Nat) : Option Token :=
  if n ≤ index then tokens.get? (index - n) else none

/-- `tokenLookAhead(n)`: `this.tokens[this.index + n]`. -/
def tokenLookAhead (tokens : List Token) (index n : Nat) : Option Token :=
  tokens.get? (index + n)

/-- Modelled from the spec: `isAnd` of `token.ts` (not in the provided
sources): the token is the keyword `AND`. -/
def isAndTok (t : Token) : Bool :=
  upperStr t.value = str "AND"

/-- Modelled from the spec: `isBetween` on an optional token: the token two
positions back is the keyword `BETWEEN`. -/
def isBetweenTok : Option Token → Bool
  | none => false
  | some t => upperStr t.value = str "BETWEEN"

/-- Modelled from the spec: `isLimit` on the previous-reserved latch (the
latch starts out empty). -/
def isLimitTok : Option Token → Bool
  | none => false
  | some t => upperStr t.value = str "LIMIT"

/-- `Formatter.show`: reserved and parenthesis tokens are uppercased or
lowercased according to `cfg.uppercase`; all other tokens verbatim. -/
def showTok (cfg : FormatConfig) (t : Token) : List Char :=
  if t.type = TokenType.RESERVED ||
     t.type = TokenType.RESERVED_TOP_LEVEL ||
     t.type = TokenType.RESERVED_TOP_LEVEL_NO_INDENT ||
     t.type = TokenType.RESERVED_NEWLINE ||
     t.type = TokenType.OPEN_PAREN ||
     t.type = TokenType.CLOSE_PAREN then
    if cfg.uppercase then upperStr t.value else lowerStr t.value
  else t.value

/-- Worker for `equalizeWhitespace`; the flag records whether we are in the
middle of a whitespace run that has already produced its single space. -/
def equalizeWsAux : Bool → List Char → List Char
  | _, [] => []
  | inRun, c :: rest =>
    if isWs c then
      if inRun then equalizeWsAux true rest
      else ' ' :: equalizeWsAux true rest
    else c :: equalizeWsAux false rest

/-- `Formatter.equalizeWhitespace`: replace every whitespace run by one
space. -/
def equalizeWhitespace (l : List Char) : List Char :=
  equalizeWsAux false l

/-- Worker for `indentComment`; the flag records whether we are consuming
the spaces and tabs that follow a newline (the `[ \t]*` of the pattern). -/
def indentCommentAux (ind : List Char) : Bool → List Char → List Char
  | _, [] => []
  | skipping, c :: rest =>
    if skipping && isSpTab c then indentCommentAux ind true rest
    else if c = '\n' then
      '\n' :: ind ++ ' ' :: indentCommentAux ind true rest
    else c :: indentCommentAux ind false rest

/-- `Formatter.indentComment`: re-indent the inner lines of a block comment
(each newline plus following spaces or tabs becomes newline, current
indent, one space). -/
def indentComment (ind : List Char) (l : List Char) : List Char :=
  indentCommentAux ind false l

/-- `Formatter.addNewline`: trim trailing spaces, append a newline unless
one is already there, then append the current indent. -/
def addNewline (cfg : FormatConfig) (st : FmtState) (q : List Char) : List Char :=
  let q := trimSpacesEnd q
  let q := if q.getLast? = some '\n' then q else q ++ ['\n']
  q ++ getIndent cfg st

/-- The three space-preservation modes of `formatWithSpaces`. -/
inductive PreserveMode where
  | both
  | before
  | after
deriving DecidableEq, Repr

/-- `Formatter.formatWithSpaces` with the three preservation modes. -/
def formatWithSpaces (cfg : FormatConfig) (t : Token) (q : List Char)
    (preserve : PreserveMode := PreserveMode.both) : List Char :=
  let before := if preserve = PreserveMode.after then trimSpacesEnd q else q
  let after := if preserve = PreserveMode.before then [] else [' ']
  before ++ showTok cfg t ++ after

/-- Modelled from the spec (§4.5): `Params.get`, dispatching on the
placeholder's key; with no params configured the placeholder's own value
passes through unchanged. -/
def paramsGet (cfg : FormatConfig) (st : FmtState) (t : Token) :
    List Char × FmtState :=
  match cfg.params with
  | none => (t.value, st)
  | some (ParamItems.named m) =>
    match t.key with
    | some k => (((m.find? (fun e => e.1 = k)).map Prod.snd).getD t.value, st)
    | none => (t.value, st)
  | some (ParamItems.positional xs) =>
    match t.key with
    | some _ => (t.value, st)
    | none => ((xs.get? st.paramIdx).getD t.value,
               { st with paramIdx := st.paramIdx + 1 })

/-- The backtick character (used by the bracket-pair dispatch rules). -/
def backtickChar : Char := Char.ofNat 96

/-- `Formatter.formatLineComment`: emit the token, then newline + indent. -/
def formatLineComment (cfg : FormatConfig) (st : FmtState) (t : Token)
    (q : List Char) : List Char :=
  addNewline cfg st (q ++ showTok cfg t)

/-- `Formatter.formatBlockComment`: newline + indent, the re-indented
comment, then newline + indent. -/
def formatBlockComment (cfg : FormatConfig) (st : FmtState) (t : Token)
    (q : List Char) : List Char :=
  addNewline cfg st (addNewline cfg st q ++ indentComment (getIndent cfg st) t.value)

/-- `Formatter.formatTopLevelReservedWordNoIndent`. -/
def formatTopLevelReservedWordNoIndent (cfg : FormatConfig) (st : FmtState)
    (t : Token) (q : List Char) : List Char × FmtState :=
  let st1 := decreaseTopLevel st
  let q1 := addNewline cfg st1 q ++ equalizeWhitespace (showTok cfg t)
  (addNewline cfg st1 q1, st1)

/-- `Formatter.formatTopLevelReservedWord`. -/
def formatTopLevelReservedWord (cfg : FormatConfig) (st : FmtState)
    (t : Token) (q : List Char) : List Char × FmtState :=
  let st1 := decreaseTopLevel st
  let q1 := addNewline cfg st1 q
  let st2 := increaseTopLevel st1
  let q2 := q1 ++ equalizeWhitespace (showTok cfg t)
  (addNewline cfg st2 q2, st2)

/-- `Formatter.formatNewlineReservedWord`, with the `BETWEEN x AND y`
exception. -/
def formatNewlineReservedWord (cfg : FormatConfig) (tokens : List Token)
    (i : Nat) (st : FmtState) (t : Token) (q : List Char) : List Char :=
  if isAndTok t && isBetweenTok (tokenLookBehind tokens i 2) then
    formatWithSpaces cfg t q
  else
    addNewline cfg st q ++ equalizeWhitespace (showTok cfg t) ++ [' ']

/-- `Formatter.formatOpeningParentheses`. -/
def formatOpeningParentheses (cfg : FormatConfig) (tokens : List Token)
    (i : Nat) (st : FmtState) (t : Token) (q : List Char) :
    List Char × FmtState :=
  let preserve :=
    match tokenLookBehind tokens i 1 with
    | some tb =>
      tb.type = TokenType.OPEN_PAREN || tb.type = TokenType.LINE_COMMENT ||
        tb.type = TokenType.OPERATOR
    | none => false
  let q := if t.whitespaceBefore.length = 0 && !preserve then trimSpacesEnd q else q
  let q := q ++ showTok cfg t
  let lvl := beginIfPossible cfg tokens i st.inlineLevel
  let st := { st with inlineLevel := lvl }
  if lvl = 0 then
    let st := increaseBlockLevel st
    (addNewline cfg st q, st)
  else (q, st)

/-- `Formatter.formatClosingParentheses`. -/
def formatClosingParentheses (cfg : FormatConfig) (st : FmtState) (t : Token)
    (q : List Char) : List Char × FmtState :=
  if st.inlineLevel > 0 then
    (formatWithSpaces cfg t q PreserveMode.after,
     { st with inlineLevel := st.inlineLevel - 1 })
  else
    let st := decreaseBlockLevel st
    (formatWithSpaces cfg t (addNewline cfg st q), st)

/-- `Formatter.formatPlaceholder`: the substituted value plus a space. -/
def formatPlaceholder (cfg : FormatConfig) (st : FmtState) (t : Token)
    (q : List Char) : List Char × FmtState :=
  (q ++ (paramsGet cfg st t).1 ++ [' '], (paramsGet cfg st t).2)

/-- `Formatter.formatComma`: trim, emit comma + space, then newline unless
an inline block is active or the previous reserved token is `LIMIT`. -/
def formatComma (cfg : FormatConfig) (st : FmtState) (t : Token)
    (q : List Char) : List Char :=
  let q1 := trimSpacesEnd q ++ showTok cfg t ++ [' ']
  if st.inlineLevel > 0 then q1
  else if isLimitTok st.prevReserved then q1
  else addNewline cfg st q1

/-- `Formatter.formatWithoutSpaces`. -/
def formatWithoutSpaces (cfg : FormatConfig) (t : Token) (q : List Char) :
    List Char :=
  trimSpacesEnd q ++ showTok cfg t

/-- `Formatter.formatQuerySeparator`: reset the indentation stack, trim,
emit the separator and `linesBetweenQueries || 1` newline characters. -/
def formatQuerySeparator (cfg : FormatConfig) (st : FmtState) (t : Token)
    (q : List Char) : List Char × FmtState :=
  (trimSpacesEnd q ++ showTok cfg t ++
     List.replicate
       (if cfg.linesBetweenQueries = 0 then 1 else cfg.linesBetweenQueries)
       '\n',
   { st with indentation := [] })

/-- The value-keyed tail of the dispatch table, reached by tokens whose
type has no dedicated rule (commas, dots, separators, brackets and the
spaced default). -/
def formatValueToken (cfg : FormatConfig) (tokens : List Token) (i : Nat)
    (st : FmtState) (t : Token) (q : List Char) : List Char × FmtState :=
  if t.value = [','] then
    (formatComma cfg st t q, st)
  else if t.value = [':'] then
    (formatWithSpaces cfg t q PreserveMode.after, st)
  else if t.value = ['.'] then
    (formatWithoutSpaces cfg t q, st)
  else if t.value = [';'] then
    formatQuerySeparator cfg st t q
  else if t.value = ['['] ||
      (t.value = [backtickChar] &&
        (tokenLookAhead tokens i 2).map Token.value = some [backtickChar]) then
    (formatWithSpaces cfg t q PreserveMode.before, st)
  else if t.value = [']'] ||
      (t.value = [backtickChar] &&
        (tokenLookBehind tokens i 2).map Token.value = some [backtickChar]) then
    (formatWithSpaces cfg t q PreserveMode.after, st)
  else
    (formatWithSpaces cfg t q, st)

/-- The dispatch table of `getFormattedQueryFromTokens` for one token
(`tokenOverride` is the identity in the base formatter and in the
standard-SQL dialect).  Returns the grown output and the updated state,
latching the previous-reserved token for the four reserved types. -/
def formatToken (cfg : FormatConfig) (tokens : List Token) (i : Nat)
    (st : FmtState) (t : Token) (q : List Char) : List Char × FmtState :=
  if t.type = TokenType.LINE_COMMENT then
    (formatLineComment cfg st t q, st)
  else if t.type = TokenType.BLOCK_COMMENT then
    (formatBlockComment cfg st t q, st)
  else if t.type = TokenType.RESERVED_TOP_LEVEL then
    ((formatTopLevelReservedWord cfg st t q).1,
     { (formatTopLevelReservedWord cfg st t q).2 with prevReserved := some t })
  else if t.type = TokenType.RESERVED_TOP_LEVEL_NO_INDENT then
    ((formatTopLevelReservedWordNoIndent cfg st t q).1,
     { (formatTopLevelReservedWordNoIndent cfg st t q).2 with prevReserved := some t })
  else if t.type = TokenType.RESERVED_NEWLINE then
    (formatNewlineReservedWord cfg tokens i st t q,
     { st with prevReserved := some t })
  else if t.type = TokenType.RESERVED then
    (formatWithSpaces cfg t q, { st with prevReserved := some t })
  else if t.type = TokenType.OPEN_PAREN then
    formatOpeningParentheses cfg tokens i st t q
  else if t.type = TokenType.CLOSE_PAREN then
    formatClosingParentheses cfg st t q
  else if t.type = TokenType.PLACEHOLDER then
    formatPlaceholder cfg st t q
  else
    formatValueToken cfg tokens i st t q

/-- The token walk of `getFormattedQueryFromTokens`: fold `formatToken`
over the stream, carrying the index used for look-behind and look-ahead. -/
def runTokens (cfg : FormatConfig) (tokens : List Token) :
    List Token → Nat → FmtState → List Char → List Char
  | [], _, _, q => q
  | t :: rest, i, st, q =>
    let (q', st') := formatToken cfg tokens i st t q
    runTokens cfg tokens rest (i + 1) st' q'

/-- `Formatter.getFormattedQueryFromTokens`: walk the stream, trim the end,
and append a newline when `cfg.trailingNewline` is set. -/
def getFormattedQueryFromTokens (cfg : FormatConfig) (tokens : List Token) :
    List Char :=
  let q := runTokens cfg tokens tokens 0 initState []
  let q := jsTrimEnd q
  if cfg.trailingNewline then q ++ ['\n'] else q

/-- The formatter applied to an already-tokenized stream, including the
final `trim()` of `Formatter.format`. -/
def formatFromTokens (cfg : FormatConfig) (tokens : List Token) : List Char :=
  jsTrim (getFormattedQueryFromTokens cfg tokens)

/-- `Formatter.format`: tokenize, walk, trim. -/
def Formatter.format (cfg : FormatConfig) (q : List Char) : List Char :=
  formatFromTokens cfg (tokenize q)

/-- The `newline` configuration value before defaulting: one of the mode
strings or a number (`src/unnamed/part_000`, `NewlineMode | number`). -/
inductive NewlineOpt where
  | always
  | never
  | byLineWidth
  | num (n : Int)
deriving DecidableEq, Repr

/-- JavaScript truthiness of a `newline` value: the mode strings are
non-empty and truthy; a number is truthy unless it is `0`. -/
def newlineTruthy : NewlineOpt → Bool
  | NewlineOpt.num n => n ≠ 0
  | _ => true

/-- `Number.isNaN(+cfg.newline)`: numbers coerce to themselves; the mode
strings are non-numeric and coerce to NaN. -/
def newlineIsNaN : NewlineOpt → Bool
  | NewlineOpt.num _ => false
  | _ => true

/-- The configuration error kinds raised before tokenizing. -/
inductive ConfigError where
  | invalidNewline
deriving DecidableEq, Repr

/-- The `newline` validation block of the public `format` entry
(`src/unnamed/part_000`, lines 93-100): guarded by truthiness and
non-NaN of the coerced value; a negative number throws; the `=== 0`
normalization to `always` sits inside the same guard. -/
def validateNewline (o : Option NewlineOpt) :
    Except ConfigError (Option NewlineOpt) :=
  match o with
  | some v =>
    if newlineTruthy v && !newlineIsNaN v then
      match v with
      | NewlineOpt.num n =>
        if n < 0 then Except.error ConfigError.invalidNewline
        else if n = 0 then Except.ok (some NewlineOpt.always)
        else Except.ok (some (NewlineOpt.num n))
      | m => Except.ok (some m)
    else Except.ok (some v)
  | none => Except.ok none

/-- The `newline` value the formatter receives: validation followed by the
shallow default merge (`{...defaultOptions, ...cfg}`; a provided value,
even `0`, overrides the default `always`). -/
def mergedNewline (o : Option NewlineOpt) : Except ConfigError NewlineOpt :=
  (validateNewline o).map (fun x => x.getD NewlineOpt.always)

/-- The `lineWidth` configuration slot of the partial options object:
`none` when absent, `some none` when present with value `undefined`,
`some (some n)` when present as a number. -/
def LineWidthSlot : Type := Option (Option Int)

/-- The `lineWidth` validation block (`src/unnamed/part_000`, lines
102-105): when truthy (non-zero) and non-positive, warn and assign
`undefined` to the property.  Returns the number of warnings emitted and
the resulting slot. -/
def validateLineWidth : LineWidthSlot → Nat × LineWidthSlot
  | some (some n) =>
    if n ≠ 0 && decide (n ≤ 0) then (1, some none) else (0, some (some n))
  | x => (0, x)

/-- The shallow spread `{...defaultOptions, ...cfg}` on the `lineWidth`
property: an own property of `cfg` overrides the default `50` even when
its value is `undefined`. -/
def mergeLineWidth : LineWidthSlot → Option Int
  | none => some 50
  | some v => v

/-- Warnings emitted and effective `lineWidth` reaching the formatter for
a given configured slot. -/
def effectiveLineWidth (lw : LineWidthSlot) : Nat × Option Int :=
  ((validateLineWidth lw).1, mergeLineWidth (validateLineWidth lw).2)

/-- Stripping whitespace distributes over concatenation. -/
theorem stripWs_append (a b : List Char) :
    stripWs (a ++ b) = stripWs a ++ stripWs b := by
  simp [stripWs, List.filter_append]

/-- A leading whitespace character is stripped. -/
theorem stripWs_cons_ws {c : Char} (h : isWs c = true) (l : List Char) :
    stripWs (c :: l) = stripWs l := by
  simp [stripWs, h]

/-- A leading non-whitespace character is kept. -/
theorem stripWs_cons_nws {c : Char} (h : isWs c = false) (l : List Char) :
    stripWs (c :: l) = c :: stripWs l := by
  simp [stripWs, h]

/-- Spaces and tabs are whitespace. -/
theorem isWs_of_isSpTab {c : Char} (h : isSpTab c = true) : isWs c = true := by
  simp only [isSpTab, Bool.or_eq_true, decide_eq_true_eq] at h
  rcases h with h | h <;> simp [isWs, h]

/-- A string of whitespace characters strips to the empty string. -/
theorem stripWs_all_ws {l : List Char} (h : l.all isWs = true) :
    stripWs l = [] := by
  simp only [stripWs, List.filter_eq_nil_iff]
  intro a ha
  simp only [List.all_eq_true] at h
  simp [h a ha]

/-- Stripping whitespace commutes with reversal. -/
theorem stripWs_reverse (l : List Char) :
    stripWs l.reverse = (stripWs l).reverse := by
  simp [stripWs, List.filter_reverse]

/-- Dropping a whitespace-only prefix does not change the stripped string. -/
theorem stripWs_dropWhile (p : Char → Bool) (hp : ∀ c, p c = true → isWs c = true) :
    ∀ l : List Char, stripWs (l.dropWhile p) = stripWs l := by
  intro l
  induction l with
  | nil => rfl
  | cons a l ih =>
    by_cases h : p a
    · rw [List.dropWhile_cons_of_pos h, ih]
      simp [stripWs, hp a h]
    · rw [List.dropWhile_cons_of_neg h]

/-- `trimSpacesEnd` does not change the stripped string. -/
theorem stripWs_trimSpacesEnd (l : List Char) :
    stripWs (trimSpacesEnd l) = stripWs l := by
  unfold trimSpacesEnd
  rw [stripWs_reverse, stripWs_dropWhile isSpTab, stripWs_reverse,
    List.reverse_reverse]
  intro c hc
  simp only [isSpTab, Bool.or_eq_true, decide_eq_true_eq] at hc
  rcases hc with h | h <;> simp [isWs, h]

/-- `jsTrimEnd` does not change the stripped string. -/
theorem stripWs_jsTrimEnd (l : List Char) :
    stripWs (jsTrimEnd l) = stripWs l := by
  unfold jsTrimEnd
  rw [stripWs_reverse, stripWs_dropWhile isWs (fun _ h => h), stripWs_reverse,
    List.reverse_reverse]

/-- `jsTrim` does not change the stripped string. -/
theorem stripWs_jsTrim (l : List Char) :
    stripWs (jsTrim l) = stripWs l := by
  unfold jsTrim jsTrimStart
  rw [stripWs_dropWhile isWs (fun _ h => h), stripWs_jsTrimEnd]

/-- A run of newline characters strips to the empty string. -/
theorem stripWs_replicate_newline (n : Nat) :
    stripWs (List.replicate n '\n') = [] := by
  apply stripWs_all_ws
  simp [List.all_eq_true, isWs]

/-- With a whitespace-only indent unit, the current indent strips to the
empty string. -/
theorem stripWs_getIndent (cfg : FormatConfig) (st : FmtState)
    (hind : cfg.indent.all isWs = true) :
    stripWs (getIndent cfg st) = [] := by
  unfold getIndent
  generalize st.indentation.length = n
  induction n with
  | zero => rfl
  | succ n ih =>
    rw [List.replicate_succ, List.flatten_cons, stripWs_append, ih,
      stripWs_all_ws hind]
    rfl

/-- With a whitespace-only indent unit, `addNewline` does not change the
stripped string. -/
theorem stripWs_addNewline (cfg : FormatConfig) (st : FmtState) (q : List Char)
    (hind : cfg.indent.all isWs = true) :
    stripWs (addNewline cfg st q) = stripWs q := by
  unfold addNewline
  rw [stripWs_append, stripWs_getIndent cfg st hind, List.append_nil]
  by_cases h : (trimSpacesEnd q).getLast? = some '\n'
  · simp [h, stripWs_trimSpacesEnd]
  · simp only [h, if_neg, ite_false, stripWs_append, stripWs_trimSpacesEnd]
    simp [stripWs, isWs]

/-- `equalizeWsAux` does not change the stripped string. -/
theorem stripWs_equalizeWsAux :
    ∀ (l : List Char) (b : Bool), stripWs (equalizeWsAux b l) = stripWs l := by
  intro l
  induction l with
  | nil => intro b; rfl
  | cons c rest ih =>
    intro b
    by_cases h : isWs c = true
    · cases b with
      | false =>
        have he : equalizeWsAux false (c :: rest) = ' ' :: equalizeWsAux true rest := by
          simp [equalizeWsAux, h]
        rw [he, stripWs_cons_ws (by decide), ih, stripWs_cons_ws h]
      | true =>
        have he : equalizeWsAux true (c :: rest) = equalizeWsAux true rest := by
          simp [equalizeWsAux, h]
        rw [he, ih, stripWs_cons_ws h]
    · have hf : isWs c = false := by simpa using h
      have he : equalizeWsAux b (c :: rest) = c :: equalizeWsAux false rest := by
        simp [equalizeWsAux, hf]
      rw [he, stripWs_cons_nws hf, ih, stripWs_cons_nws hf]

/-- `equalizeWhitespace` does not change the stripped string. -/
theorem stripWs_equalizeWhitespace (l : List Char) :
    stripWs (equalizeWhitespace l) = stripWs l :=
  stripWs_equalizeWsAux l false

/-- With an indent that strips to nothing, `indentCommentAux` does not
change the stripped string. -/
theorem stripWs_indentCommentAux (ind : List Char)
    (hind : stripWs ind = []) :
    ∀ (l : List Char) (b : Bool),
      stripWs (indentCommentAux ind b l) = stripWs l := by
  intro l
  induction l with
  | nil => intro b; rfl
  | cons c rest ih =>
    intro b
    by_cases hskip : (b && isSpTab c) = true
    · have hsp : isSpTab c = true := by
        simp only [Bool.and_eq_true] at hskip
        exact hskip.2
      have he : indentCommentAux ind b (c :: rest) = indentCommentAux ind true rest := by
        simp [indentCommentAux, hskip]
      rw [he, ih, stripWs_cons_ws (isWs_of_isSpTab hsp)]
    · by_cases hnl : c = '\n'
      · subst hnl
        have he : indentCommentAux ind b ('\n' :: rest)
            = ['\n'] ++ ind ++ ([' '] ++ indentCommentAux ind true rest) := by
          simp [indentCommentAux, hskip]
        rw [he]
        simp only [stripWs_append]
        rw [ih, hind]
        have e1 : stripWs ['\n'] = [] := by decide
        have e2 : stripWs [' '] = [] := by decide
        have e3 : stripWs ('\n' :: rest) = stripWs rest :=
          stripWs_cons_ws (by decide) rest
        rw [e1, e2, e3]
        simp
      · have he : indentCommentAux ind b (c :: rest)
            = c :: indentCommentAux ind false rest := by
          simp [indentCommentAux, hskip, hnl]
        rw [he]
        by_cases hc : isWs c = true
        · rw [stripWs_cons_ws hc, stripWs_cons_ws hc, ih]
        · have hf : isWs c = false := by simpa using hc
          rw [stripWs_cons_nws hf, stripWs_cons_nws hf, ih]

/-- With an indent that strips to nothing, `indentComment` does not change
the stripped string. -/
theorem stripWs_indentComment (ind l : List Char) (hind : stripWs ind = []) :
    stripWs (indentComment ind l) = stripWs l :=
  stripWs_indentCommentAux ind hind l false

/-- A single space strips to nothing. -/
theorem stripWs_space : stripWs [' '] = [] := by decide

/-- For a token type outside the cased set, `showTok` is the identity on
the lexeme. -/
theorem showTok_eq_value (cfg : FormatConfig) (t : Token)
    (h : t.type = TokenType.LINE_COMMENT ∨ t.type = TokenType.BLOCK_COMMENT ∨
         t.type = TokenType.PLACEHOLDER ∨ t.type = TokenType.WORD ∨
         t.type = TokenType.STRING ∨ t.type = TokenType.OPERATOR ∨
         t.type = TokenType.NUMBER ∨ t.type = TokenType.PUNCTUATION ∨
         t.type = TokenType.WHITESPACE) :
    showTok cfg t = t.value := by
  unfold showTok
  rcases h with h | h | h | h | h | h | h | h | h <;> rw [h] <;> simp

/-- `formatWithSpaces` preserves the stripped content and appends the
token's rendering. -/
theorem stripWs_formatWithSpaces (cfg : FormatConfig) (t : Token)
    (q : List Char) (mode : PreserveMode) :
    stripWs (formatWithSpaces cfg t q mode) =
      stripWs q ++ stripWs (showTok cfg t) := by
  cases mode <;>
    simp [formatWithSpaces, stripWs_append, stripWs_trimSpacesEnd, stripWs_space]

/-- The `addNewline` + emit + space shape preserves stripped content. -/
theorem stripWs_formatNewlineReservedWord (cfg : FormatConfig)
    (tokens : List Token) (i : Nat) (st : FmtState) (t : Token) (q : List Char)
    (hind : cfg.indent.all isWs = true) :
    stripWs (formatNewlineReservedWord cfg tokens i st t q) =
      stripWs q ++ stripWs (showTok cfg t) := by
  unfold formatNewlineReservedWord
  by_cases h : (isAndTok t && isBetweenTok (tokenLookBehind tokens i 2)) = true
  · rw [if_pos h, stripWs_formatWithSpaces]
  · rw [if_neg h, stripWs_append, stripWs_append,
      stripWs_addNewline cfg st q hind, stripWs_equalizeWhitespace,
      stripWs_space, List.append_nil]

/-- `formatTopLevelReservedWord` preserves stripped content. -/
theorem stripWs_formatTopLevelReservedWord (cfg : FormatConfig) (st : FmtState)
    (t : Token) (q : List Char) (hind : cfg.indent.all isWs = true) :
    stripWs (formatTopLevelReservedWord cfg st t q).1 =
      stripWs q ++ stripWs (showTok cfg t) := by
  unfold formatTopLevelReservedWord
  rw [stripWs_addNewline _ _ _ hind, stripWs_append,
    stripWs_addNewline _ _ _ hind, stripWs_equalizeWhitespace]

/-- `formatTopLevelReservedWordNoIndent` preserves stripped content. -/
theorem stripWs_formatTopLevelReservedWordNoIndent (cfg : FormatConfig)
    (st : FmtState) (t : Token) (q : List Char)
    (hind : cfg.indent.all isWs = true) :
    stripWs (formatTopLevelReservedWordNoIndent cfg st t q).1 =
      stripWs q ++ stripWs (showTok cfg t) := by
  unfold formatTopLevelReservedWordNoIndent
  rw [stripWs_addNewline _ _ _ hind, stripWs_append,
    stripWs_addNewline _ _ _ hind, stripWs_equalizeWhitespace]

/-- `formatOpeningParentheses` preserves stripped content. -/
theorem stripWs_formatOpeningParentheses (cfg : FormatConfig)
    (tokens : List Token) (i : Nat) (st : FmtState) (t : Token) (q : List Char)
    (hind : cfg.indent.all isWs = true) :
    stripWs (formatOpeningParentheses cfg tokens i st t q).1 =
      stripWs q ++ stripWs (showTok cfg t) := by
  simp only [formatOpeningParentheses]
  split_ifs <;>
    simp [stripWs_addNewline _ _ _ hind, stripWs_append, stripWs_trimSpacesEnd]

/-- `formatClosingParentheses` preserves stripped content. -/
theorem stripWs_formatClosingParentheses (cfg : FormatConfig) (st : FmtState)
    (t : Token) (q : List Char) (hind : cfg.indent.all isWs = true) :
    stripWs (formatClosingParentheses cfg st t q).1 =
      stripWs q ++ stripWs (showTok cfg t) := by
  unfold formatClosingParentheses
  by_cases h : st.inlineLevel > 0
  · rw [if_pos h]
    exact stripWs_formatWithSpaces cfg t q PreserveMode.after
  · rw [if_neg h]
    rw [show (formatWithSpaces cfg t (addNewline cfg (decreaseBlockLevel st) q),
        decreaseBlockLevel st).1 =
      formatWithSpaces cfg t (addNewline cfg (decreaseBlockLevel st) q) from rfl]
    rw [stripWs_formatWithSpaces, stripWs_addNewline _ _ _ hind]

/-- `formatComma` preserves stripped content. -/
theorem stripWs_formatComma (cfg : FormatConfig) (st : FmtState) (t : Token)
    (q : List Char) (hind : cfg.indent.all isWs = true) :
    stripWs (formatComma cfg st t q) = stripWs q ++ stripWs (showTok cfg t) := by
  unfold formatComma
  by_cases h1 : st.inlineLevel > 0 <;> by_cases h2 : isLimitTok st.prevReserved <;>
    simp [h1, h2, stripWs_addNewline _ _ _ hind, stripWs_append,
      stripWs_trimSpacesEnd, stripWs_space]

/-- `formatQuerySeparator` preserves stripped content. -/
theorem stripWs_formatQuerySeparator (cfg : FormatConfig) (st : FmtState)
    (t : Token) (q : List Char) :
    stripWs (formatQuerySeparator cfg st t q).1 =
      stripWs q ++ stripWs (showTok cfg t) := by
  unfold formatQuerySeparator
  rw [show ((trimSpacesEnd q ++ showTok cfg t ++
      List.replicate
        (if cfg.linesBetweenQueries = 0 then 1 else cfg.linesBetweenQueries)
        '\n'), ({ st with indentation := [] } : FmtState)).1 =
    trimSpacesEnd q ++ showTok cfg t ++
      List.replicate
        (if cfg.linesBetweenQueries = 0 then 1 else cfg.linesBetweenQueries)
        '\n' from rfl]
  rw [stripWs_append, stripWs_append, stripWs_trimSpacesEnd,
    stripWs_replicate_newline, List.append_nil]


/-- The value-keyed tail of the dispatch preserves stripped content. -/
theorem stripWs_formatValueToken (cfg : FormatConfig) (tokens : List Token)
    (i : Nat) (st : FmtState) (t : Token) (q : List Char)
    (hind : cfg.indent.all isWs = true) :
    stripWs (formatValueToken cfg tokens i st t q).1 =
      stripWs q ++ stripWs (showTok cfg t) := by
  unfold formatValueToken
  split_ifs
  · exact stripWs_formatComma cfg st t q hind
  · exact stripWs_formatWithSpaces cfg t q PreserveMode.after
  · unfold formatWithoutSpaces
    rw [show ((trimSpacesEnd q ++ showTok cfg t : List Char), st).1 =
      trimSpacesEnd q ++ showTok cfg t from rfl]
    rw [stripWs_append, stripWs_trimSpacesEnd]
  · exact stripWs_formatQuerySeparator cfg st t q
  · exact stripWs_formatWithSpaces cfg t q PreserveMode.before
  · exact stripWs_formatWithSpaces cfg t q PreserveMode.after
  · exact stripWs_formatWithSpaces cfg t q PreserveMode.both

/-- One dispatch step preserves the stripped content and appends exactly
the stripped rendering of the token (whitespace-only indent, no params). -/
theorem stripWs_formatToken (cfg : FormatConfig) (tokens : List Token)
    (i : Nat) (st : FmtState) (t : Token) (q : List Char)
    (hind : cfg.indent.all isWs = true) (hp : cfg.params = none) :
    stripWs (formatToken cfg tokens i st t q).1 =
      stripWs q ++ stripWs (showTok cfg t) := by
  obtain ⟨tt, v, wb, k⟩ := t
  cases tt with
  | LINE_COMMENT =>
    show stripWs (formatLineComment cfg st ⟨TokenType.LINE_COMMENT, v, wb, k⟩ q) = _
    unfold formatLineComment
    rw [stripWs_addNewline _ _ _ hind, stripWs_append]
  | BLOCK_COMMENT =>
    show stripWs (formatBlockComment cfg st ⟨TokenType.BLOCK_COMMENT, v, wb, k⟩ q) = _
    unfold formatBlockComment
    rw [stripWs_addNewline _ _ _ hind, stripWs_append,
      stripWs_addNewline _ _ _ hind,
      stripWs_indentComment _ _ (stripWs_getIndent cfg st hind),
      showTok_eq_value cfg _ (by tauto)]
  | RESERVED_TOP_LEVEL =>
    show stripWs (formatTopLevelReservedWord cfg st ⟨TokenType.RESERVED_TOP_LEVEL, v, wb, k⟩ q).1 = _
    exact stripWs_formatTopLevelReservedWord cfg st _ q hind
  | RESERVED_TOP_LEVEL_NO_INDENT =>
    show stripWs (formatTopLevelReservedWordNoIndent cfg st
      ⟨TokenType.RESERVED_TOP_LEVEL_NO_INDENT, v, wb, k⟩ q).1 = _
    exact stripWs_formatTopLevelReservedWordNoIndent cfg st _ q hind
  | RESERVED_NEWLINE =>
    show stripWs (formatNewlineReservedWord cfg tokens i st
      ⟨TokenType.RESERVED_NEWLINE, v, wb, k⟩ q) = _
    exact stripWs_formatNewlineReservedWord cfg tokens i st _ q hind
  | RESERVED =>
    show stripWs (formatWithSpaces cfg ⟨TokenType.RESERVED, v, wb, k⟩ q) = _
    exact stripWs_formatWithSpaces cfg _ q PreserveMode.both
  | OPEN_PAREN =>
    show stripWs (formatOpeningParentheses cfg tokens i st
      ⟨TokenType.OPEN_PAREN, v, wb, k⟩ q).1 = _
    exact stripWs_formatOpeningParentheses cfg tokens i st _ q hind
  | CLOSE_PAREN =>
    show stripWs (formatClosingParentheses cfg st
      ⟨TokenType.CLOSE_PAREN, v, wb, k⟩ q).1 = _
    exact stripWs_formatClosingParentheses cfg st _ q hind
  | PLACEHOLDER =>
    show stripWs (formatPlaceholder cfg st ⟨TokenType.PLACEHOLDER, v, wb, k⟩ q).1 = _
    unfold formatPlaceholder
    rw [show (q ++ (paramsGet cfg st ⟨TokenType.PLACEHOLDER, v, wb, k⟩).1 ++ [' '],
        (paramsGet cfg st ⟨TokenType.PLACEHOLDER, v, wb, k⟩).2).1 =
      q ++ (paramsGet cfg st ⟨TokenType.PLACEHOLDER, v, wb, k⟩).1 ++ [' '] from rfl]
    rw [show (paramsGet cfg st ⟨TokenType.PLACEHOLDER, v, wb, k⟩).1 = v by
      rw [paramsGet, hp]]
    rw [stripWs_append, stripWs_append, stripWs_space, List.append_nil,
      showTok_eq_value cfg _ (by tauto)]
  | WHITESPACE =>
    show stripWs (formatValueToken cfg tokens i st
      ⟨TokenType.WHITESPACE, v, wb, k⟩ q).1 = _
    exact stripWs_formatValueToken cfg tokens i st _ q hind
  | WORD =>
    show stripWs (formatValueToken cfg tokens i st ⟨TokenType.WORD, v, wb, k⟩ q).1 = _
    exact stripWs_formatValueToken cfg tokens i st _ q hind
  | STRING =>
    show stripWs (formatValueToken cfg tokens i st ⟨TokenType.STRING, v, wb, k⟩ q).1 = _
    exact stripWs_formatValueToken cfg tokens i st _ q hind
  | OPERATOR =>
    show stripWs (formatValueToken cfg tokens i st ⟨TokenType.OPERATOR, v, wb, k⟩ q).1 = _
    exact stripWs_formatValueToken cfg tokens i st _ q hind
  | NUMBER =>
    show stripWs (formatValueToken cfg tokens i st ⟨TokenType.NUMBER, v, wb, k⟩ q).1 = _
    exact stripWs_formatValueToken cfg tokens i st _ q hind
  | PUNCTUATION =>
    show stripWs (formatValueToken cfg tokens i st ⟨TokenType.PUNCTUATION, v, wb, k⟩ q).1 = _
    exact stripWs_formatValueToken cfg tokens i st _ q hind

/-- The token walk preserves the stripped content of the output and
appends the stripped renderings of the remaining tokens, in order. -/
theorem stripWs_runTokens (cfg : FormatConfig) (tokens : List Token)
    (hind : cfg.indent.all isWs = true) (hp : cfg.params = none) :
    ∀ (rest : List Token) (i : Nat) (st : FmtState) (q : List Char),
      stripWs (runTokens cfg tokens rest i st q) =
        stripWs q ++ (rest.map (fun t => stripWs (showTok cfg t))).flatten := by
  intro rest
  induction rest with
  | nil =>
    intro i st q
    simp [runTokens]
  | cons t rest ih =>
    intro i st q
    rw [show runTokens cfg tokens (t :: rest) i st q =
      runTokens cfg tokens rest (i + 1) (formatToken cfg tokens i st t q).2
        (formatToken cfg tokens i st t q).1 from rfl]
    rw [ih, stripWs_formatToken cfg tokens i st t q hind hp]
    simp

set_option maxRecDepth 10000

/-- C1 (amended): for every token stream satisfying the tokenizer
invariant (the whitespace-stripped input equals the concatenation of the
whitespace-stripped lexemes), with a whitespace-only indent unit, no
params configured, and every reserved or parenthesis lexeme already in
the case the formatter emits, stripping all whitespace from the formatted
output yields the same string as stripping all whitespace from the
input. -/
theorem c1_content_preservation_upto_case (cfg : FormatConfig)
    (ts : List Token) (q : List Char)
    (hinv : stripWs q = (ts.map (fun t => stripWs t.value)).flatten)
    (hind : cfg.indent.all isWs = true)
    (hp : cfg.params = none)
    (hcase : ∀ t ∈ ts, showTok cfg t = t.value) :
    stripWs (formatFromTokens cfg ts) = stripWs q := by
  unfold formatFromTokens getFormattedQueryFromTokens
  rw [stripWs_jsTrim]
  by_cases hb : cfg.trailingNewline = true
  · simp only [hb, if_true]
    rw [stripWs_append, stripWs_jsTrimEnd,
      stripWs_runTokens cfg ts hind hp ts 0 initState []]
    rw [show stripWs ['\n'] = [] from by decide, List.append_nil]
    rw [show stripWs ([] : List Char) = [] from rfl, List.nil_append]
    rw [hinv]
    exact congrArg List.flatten (List.map_congr_left
      (fun t ht => by rw [hcase t ht]))
  · simp only [hb, if_false, Bool.not_eq_true] at *
    simp only [hb, Bool.false_eq_true, if_false]
    rw [stripWs_jsTrimEnd, stripWs_runTokens cfg ts hind hp ts 0 initState []]
    rw [show stripWs ([] : List Char) = [] from rfl, List.nil_append]
    rw [hinv]
    exact congrArg List.flatten (List.map_congr_left
      (fun t ht => by rw [hcase t ht]))

/-- Witness for C1: a concrete stream (`SELECT 1`, already uppercase)
satisfying every hypothesis, with the conclusion instantiated. -/
theorem c1_content_preservation_upto_case_witness :
    (stripWs (str "SELECT 1") =
      (([⟨TokenType.RESERVED_TOP_LEVEL, str "SELECT", [], none⟩,
         ⟨TokenType.NUMBER, str "1", [' '], none⟩] : List Token).map
        (fun t => stripWs t.value)).flatten) ∧
    stripWs (formatFromTokens defaultConfig
      [⟨TokenType.RESERVED_TOP_LEVEL, str "SELECT", [], none⟩,
       ⟨TokenType.NUMBER, str "1", [' '], none⟩]) = stripWs (str "SELECT 1") :=
  ⟨by decide,
   c1_content_preservation_upto_case defaultConfig
     [⟨TokenType.RESERVED_TOP_LEVEL, str "SELECT", [], none⟩,
      ⟨TokenType.NUMBER, str "1", [' '], none⟩]
     (str "SELECT 1") (by decide) (by decide) rfl (by decide)⟩

/-- Counterexample for C1 as stated: with the default configuration
(`uppercase = true`) the reserved word of `select 1` is re-cased, and a
non-whitespace indent unit (`indent = "x"`) injects non-whitespace
characters, so on-the-nose equality of the whitespace-stripped strings
fails. -/
theorem c1_content_preservation_counterexample :
    stripWs (Formatter.format defaultConfig (str "select 1"))
        ≠ stripWs (str "select 1")
    ∧ stripWs (Formatter.format { defaultConfig with indent := str "x" }
        (str "SELECT 1")) ≠ stripWs (str "SELECT 1") := by
  constructor
  · decide
  · decide

/-- C2 (counterexample): `format` is not idempotent.  For
`SELECT(a)` the first pass trims the space before the abutting `(` and
leaves the group at column zero; re-formatting sees a newline in
`whitespaceBefore`, skips the trim, and indents the group. -/
theorem c2_format_not_idempotent :
    Formatter.format defaultConfig
        (Formatter.format defaultConfig (str "SELECT(a)"))
      ≠ Formatter.format defaultConfig (str "SELECT(a)") := by
  decide

/-- C2 (amended): idempotence holds only from the second application on:
a second pass is a fixed point of the counterexample query, and the same
query with a space before the parenthesis is formatted idempotently. -/
theorem c2_idempotent_from_second_application :
    Formatter.format defaultConfig (Formatter.format defaultConfig
        (Formatter.format defaultConfig (str "SELECT(a)")))
      = Formatter.format defaultConfig
          (Formatter.format defaultConfig (str "SELECT(a)"))
    ∧ Formatter.format defaultConfig
        (Formatter.format defaultConfig (str "SELECT (a)"))
      = Formatter.format defaultConfig (str "SELECT (a)") := by
  constructor
  · decide
  · decide

/-- Token types with no dedicated type rule: these reach the value-keyed
tail of the dispatch table. -/
def reachesValueDispatch : TokenType → Bool
  | TokenType.WHITESPACE => true
  | TokenType.WORD => true
  | TokenType.STRING => true
  | TokenType.OPERATOR => true
  | TokenType.NUMBER => true
  | TokenType.PUNCTUATION => true
  | _ => false

/-- Tokens without a dedicated type rule are dispatched on their value. -/
theorem formatToken_value_dispatch (cfg : FormatConfig) (tokens : List Token)
    (i : Nat) (st : FmtState) (t : Token) (q : List Char)
    (ht : reachesValueDispatch t.type = true) :
    formatToken cfg tokens i st t q = formatValueToken cfg tokens i st t q := by
  obtain ⟨tt, v, wb, k⟩ := t
  cases tt <;> first | rfl | simp [reachesValueDispatch] at ht

/-- C3 (amended): on a `;` token (one whose type reaches the value-keyed
dispatch), the formatter resets the indentation stack, trims trailing
spaces, emits the separator, and appends `max 1 linesBetweenQueries`
newline characters — one newline, not zero, when `linesBetweenQueries` is
`0`, because the source computes `linesBetweenQueries || 1`. -/
theorem c3_query_separator_rule (cfg : FormatConfig) (tokens : List Token)
    (i : Nat) (st : FmtState) (t : Token) (q : List Char)
    (ht : reachesValueDispatch t.type = true) (hv : t.value = [';']) :
    (formatToken cfg tokens i st t q).1 =
      trimSpacesEnd q ++ showTok cfg t ++
        List.replicate (max 1 cfg.linesBetweenQueries) '\n'
    ∧ (formatToken cfg tokens i st t q).2.indentation = [] := by
  rw [formatToken_value_dispatch cfg tokens i st t q ht]
  obtain ⟨tt, v, wb, k⟩ := t
  dsimp only at hv
  subst hv
  have hmax : (if cfg.linesBetweenQueries = 0 then 1 else cfg.linesBetweenQueries)
      = max 1 cfg.linesBetweenQueries := by
    rcases Nat.eq_zero_or_pos cfg.linesBetweenQueries with h | h
    · simp [h]
    · rw [if_neg (by omega)]
      omega
  constructor
  · show (formatQuerySeparator cfg st ⟨tt, [';'], wb, k⟩ q).1 = _
    unfold formatQuerySeparator
    rw [show ((trimSpacesEnd q ++ showTok cfg ⟨tt, [';'], wb, k⟩ ++
        List.replicate
          (if cfg.linesBetweenQueries = 0 then 1 else cfg.linesBetweenQueries) '\n'),
        ({ st with indentation := [] } : FmtState)).1 =
      trimSpacesEnd q ++ showTok cfg ⟨tt, [';'], wb, k⟩ ++
        List.replicate
          (if cfg.linesBetweenQueries = 0 then 1 else cfg.linesBetweenQueries) '\n'
      from rfl]
    rw [hmax]
  · show (formatQuerySeparator cfg st ⟨tt, [';'], wb, k⟩ q).2.indentation = []
    rfl

/-- Witness for C3 (amended): the separator rule at a concrete token,
configuration and output prefix. -/
theorem c3_query_separator_rule_witness :
    (formatToken defaultConfig [] 0 initState
        ⟨TokenType.PUNCTUATION, [';'], [], none⟩ (str "x")).1 =
      trimSpacesEnd (str "x") ++
        showTok defaultConfig ⟨TokenType.PUNCTUATION, [';'], [], none⟩ ++
        List.replicate (max 1 defaultConfig.linesBetweenQueries) '\n'
    ∧ (formatToken defaultConfig [] 0 initState
        ⟨TokenType.PUNCTUATION, [';'], [], none⟩ (str "x")).2.indentation = [] :=
  c3_query_separator_rule defaultConfig [] 0 initState
    ⟨TokenType.PUNCTUATION, [';'], [], none⟩ (str "x") rfl rfl

/-- Counterexample for C3 as stated: with `linesBetweenQueries = 0` the
claim demands zero appended newlines (output `x;`), but the dispatcher
emits exactly one. -/
theorem c3_query_separator_counterexample :
    (formatToken { defaultConfig with linesBetweenQueries := 0 } [] 0 initState
        ⟨TokenType.PUNCTUATION, [';'], [], none⟩ (str "x")).1 = str "x;" ++ ['\n']
    ∧ str "x;" ++ ['\n'] ≠ str "x;" := by
  constructor
  · decide
  · decide

/-- C4: the `newline = 0` normalization branch is dead code — the guard
`cfg.newline && …` is falsy at `0`, so `0` flows through un-normalized
(instead of becoming `always`) without failing, while a negative number
does fail with the `InvalidNewline` error, and a positive number passes
through. -/
theorem c4_newline_validation :
    mergedNewline (some (NewlineOpt.num 0)) = Except.ok (NewlineOpt.num 0)
    ∧ mergedNewline (some (NewlineOpt.num 0)) ≠ Except.ok NewlineOpt.always
    ∧ mergedNewline (some (NewlineOpt.num (-1)))
        = Except.error ConfigError.invalidNewline
    ∧ mergedNewline (some (NewlineOpt.num 3)) = Except.ok (NewlineOpt.num 3) := by
  refine ⟨rfl, ?_, rfl, rfl⟩
  intro h
  rw [show mergedNewline (some (NewlineOpt.num 0))
      = Except.ok (NewlineOpt.num 0) from rfl] at h
  exact absurd (Except.ok.inj h) (by decide)

/-- C5: the `lineWidth` auto-correction misfires at both non-positive
inputs — `0` is falsy, so no warning is emitted and the effective width
stays `0`; a negative width warns but the assigned `undefined` survives
the object spread, so the effective width is `undefined` rather than the
default `50` (which only an absent property receives). -/
theorem c5_linewidth_validation :
    effectiveLineWidth (some (some 0)) = (0, some 0)
    ∧ effectiveLineWidth (some (some (-1))) = (1, none)
    ∧ effectiveLineWidth none = (0, some 50)
    ∧ effectiveLineWidth (some (some 0)) ≠ (1, some 50)
    ∧ effectiveLineWidth (some (some (-1))) ≠ (1, some 50) := by
  refine ⟨by decide, by decide, by decide, by decide, by decide⟩

/-- C6: a `RESERVED_NEWLINE` token that is `AND` with `BETWEEN` two
positions back is emitted inline with surrounding spaces; every other
`RESERVED_NEWLINE` token gets newline + indent, the whitespace-normalized
token, and a trailing space. -/
theorem c6_newline_reserved_rule (cfg : FormatConfig) (tokens : List Token)
    (i : Nat) (st : FmtState) (t : Token) (q : List Char)
    (ht : t.type = TokenType.RESERVED_NEWLINE) :
    (formatToken cfg tokens i st t q).1 =
      if (isAndTok t && isBetweenTok (tokenLookBehind tokens i 2)) = true then
        q ++ showTok cfg t ++ [' ']
      else
        addNewline cfg st q ++ equalizeWhitespace (showTok cfg t) ++ [' '] := by
  obtain ⟨tt, v, wb, k⟩ := t
  dsimp only at ht
  subst ht
  show formatNewlineReservedWord cfg tokens i st
    ⟨TokenType.RESERVED_NEWLINE, v, wb, k⟩ q = _
  unfold formatNewlineReservedWord
  by_cases h : (isAndTok ⟨TokenType.RESERVED_NEWLINE, v, wb, k⟩ &&
      isBetweenTok (tokenLookBehind tokens i 2)) = true
  · rw [if_pos h, if_pos h]
    unfold formatWithSpaces
    simp
  · rw [if_neg h, if_neg h]

/-- Witness for C6: the `BETWEEN x AND y` exception at a concrete stream
(`AND` at index 3, `BETWEEN` at index 1): the token is emitted on the
same line with surrounding spaces. -/
theorem c6_newline_reserved_rule_witness :
    (formatToken defaultConfig
        [⟨TokenType.WORD, str "x", [], none⟩,
         ⟨TokenType.RESERVED, str "BETWEEN", [' '], none⟩,
         ⟨TokenType.NUMBER, str "1", [' '], none⟩,
         ⟨TokenType.RESERVED_NEWLINE, str "AND", [' '], none⟩,
         ⟨TokenType.NUMBER, str "2", [' '], none⟩]
        3 initState ⟨TokenType.RESERVED_NEWLINE, str "AND", [' '], none⟩
        (str "x BETWEEN 1 ")).1 =
      str "x BETWEEN 1 " ++
        showTok defaultConfig ⟨TokenType.RESERVED_NEWLINE, str "AND", [' '], none⟩
        ++ [' '] := by
  rw [c6_newline_reserved_rule defaultConfig
    [⟨TokenType.WORD, str "x", [], none⟩,
     ⟨TokenType.RESERVED, str "BETWEEN", [' '], none⟩,
     ⟨TokenType.NUMBER, str "1", [' '], none⟩,
     ⟨TokenType.RESERVED_NEWLINE, str "AND", [' '], none⟩,
     ⟨TokenType.NUMBER, str "2", [' '], none⟩]
    3 initState ⟨TokenType.RESERVED_NEWLINE, str "AND", [' '], none⟩
    (str "x BETWEEN 1 ") rfl]
  rw [if_pos (by decide)]

/-- C7: a `,` token is emitted after trimming trailing spaces, followed by
a space; a newline + indent follows unless the inline block is active or
the previous reserved token is `LIMIT`. -/
theorem c7_comma_rule (cfg : FormatConfig) (tokens : List Token) (i : Nat)
    (st : FmtState) (t : Token) (q : List Char)
    (ht : reachesValueDispatch t.type = true) (hv : t.value = [',']) :
    (formatToken cfg tokens i st t q).1 =
      if st.inlineLevel > 0 ∨ isLimitTok st.prevReserved = true then
        trimSpacesEnd q ++ showTok cfg t ++ [' ']
      else
        addNewline cfg st (trimSpacesEnd q ++ showTok cfg t ++ [' ']) := by
  rw [formatToken_value_dispatch cfg tokens i st t q ht]
  obtain ⟨tt, v, wb, k⟩ := t
  dsimp only at hv
  subst hv
  show formatComma cfg st ⟨tt, [','], wb, k⟩ q = _
  unfold formatComma
  by_cases h1 : st.inlineLevel > 0
  · rw [if_pos h1, if_pos (Or.inl h1)]
  · rw [if_neg h1]
    by_cases h2 : isLimitTok st.prevReserved = true
    · rw [if_pos h2, if_pos (Or.inr h2)]
    · rw [if_neg h2, if_neg (by tauto)]

/-- Witness for C7: a comma with the `LIMIT` latch set stays inline. -/
theorem c7_comma_rule_witness :
    (formatToken defaultConfig [] 0
        { initState with
            prevReserved := some ⟨TokenType.RESERVED_TOP_LEVEL, str "LIMIT", [' '], none⟩ }
        ⟨TokenType.PUNCTUATION, [','], [], none⟩ (str "LIMIT 10")).1 =
      trimSpacesEnd (str "LIMIT 10") ++
        showTok defaultConfig ⟨TokenType.PUNCTUATION, [','], [], none⟩ ++ [' '] := by
  rw [c7_comma_rule defaultConfig [] 0
    { initState with
        prevReserved := some ⟨TokenType.RESERVED_TOP_LEVEL, str "LIMIT", [' '], none⟩ }
    ⟨TokenType.PUNCTUATION, [','], [], none⟩ (str "LIMIT 10") rfl rfl]
  rw [if_pos (by decide)]

/-- Token types whose rendering is re-cased by `Formatter.show`. -/
def isCasedType : TokenType → Bool
  | TokenType.RESERVED => true
  | TokenType.RESERVED_TOP_LEVEL => true
  | TokenType.RESERVED_TOP_LEVEL_NO_INDENT => true
  | TokenType.RESERVED_NEWLINE => true
  | TokenType.OPEN_PAREN => true
  | TokenType.CLOSE_PAREN => true
  | _ => false

/-- C9: with `uppercase` disabled, every reserved and parenthesis token is
emitted lower-cased; tokens of every other type are emitted verbatim for
either value of `uppercase`. -/
theorem c9_show_casing (cfg : FormatConfig) (t : Token) :
    (cfg.uppercase = false → isCasedType t.type = true →
      showTok cfg t = lowerStr t.value)
    ∧ (isCasedType t.type = false → showTok cfg t = t.value) := by
  constructor
  · intro hu hc
    unfold showTok
    cases htt : t.type <;> simp_all [isCasedType]
  · intro hc
    unfold showTok
    cases htt : t.type <;> simp_all [isCasedType]

/-- Witness for C9: `AND` with `uppercase` off is lower-cased, and a word
token is emitted verbatim. -/
theorem c9_show_casing_witness :
    showTok { defaultConfig with uppercase := false }
        ⟨TokenType.RESERVED_NEWLINE, str "AND", [], none⟩ = lowerStr (str "AND")
    ∧ showTok defaultConfig ⟨TokenType.WORD, str "Foo", [], none⟩ = str "Foo" :=
  ⟨(c9_show_casing { defaultConfig with uppercase := false }
      ⟨TokenType.RESERVED_NEWLINE, str "AND", [], none⟩).1 rfl rfl,
   (c9_show_casing defaultConfig ⟨TokenType.WORD, str "Foo", [], none⟩).2 rfl⟩

/-- The head of `dropWhile p` never satisfies `p`. -/
theorem dropWhile_head_false {α : Type} (p : α → Bool) :
    ∀ (l : List α) (c : α), (l.dropWhile p).head? = some c → p c = false := by
  intro l
  induction l with
  | nil =>
    intro c h
    simp at h
  | cons a l ih =>
    intro c h
    by_cases ha : p a
    · rw [List.dropWhile_cons_of_pos ha] at h
      exact ih c h
    · rw [List.dropWhile_cons_of_neg ha] at h
      simp only [List.head?_cons, Option.some.injEq] at h
      subst h
      simpa using ha

/-- A non-empty `dropWhile p` keeps the last element of the list. -/
theorem dropWhile_getLast_some {α : Type} (p : α → Bool) :
    ∀ (l : List α) (c : α),
      (l.dropWhile p).getLast? = some c → l.getLast? = some c := by
  intro l
  induction l with
  | nil =>
    intro c h
    simp at h
  | cons a l ih =>
    intro c h
    by_cases ha : p a
    · rw [List.dropWhile_cons_of_pos ha] at h
      have hl := ih c h
      rcases l with _ | ⟨b, l'⟩
      · simp at hl
      · rw [List.getLast?_cons_cons]
        exact hl
    · rw [List.dropWhile_cons_of_neg ha] at h
      exact h

/-- A character surviving at the end of `jsTrimEnd` is not whitespace. -/
theorem jsTrimEnd_getLast_not_ws (x : List Char) (c : Char)
    (h : (jsTrimEnd x).getLast? = some c) : isWs c = false := by
  unfold jsTrimEnd at h
  rw [List.getLast?_reverse] at h
  exact dropWhile_head_false isWs _ c h

/-- The first character of `jsTrim` is not whitespace. -/
theorem jsTrim_head_not_ws (x : List Char) (c : Char)
    (h : (jsTrim x).head? = some c) : isWs c = false := by
  unfold jsTrim jsTrimStart at h
  exact dropWhile_head_false isWs _ c h

/-- The last character of `jsTrim` is not whitespace. -/
theorem jsTrim_getLast_not_ws (x : List Char) (c : Char)
    (h : (jsTrim x).getLast? = some c) : isWs c = false := by
  unfold jsTrim jsTrimStart at h
  exact jsTrimEnd_getLast_not_ws x c (dropWhile_getLast_some isWs _ c h)

/-- C8: the returned string has no leading and no trailing whitespace at
all (the final `trim()` also removes the single optional trailing newline
the claim allows). -/
theorem c8_output_trimmed (cfg : FormatConfig) (q : List Char) :
    ((Formatter.format cfg q).head?.all (fun c => !(isWs c))) = true
    ∧ ((Formatter.format cfg q).getLast?.all (fun c => !(isWs c))) = true := by
  constructor
  · cases hh : (Formatter.format cfg q).head? with
    | none => rfl
    | some c =>
      have hws : isWs c = false :=
        jsTrim_head_not_ws (getFormattedQueryFromTokens cfg (tokenize q)) c hh
      simp [hws]
  · cases hh : (Formatter.format cfg q).getLast? with
    | none => rfl
    | some c =>
      have hws : isWs c = false :=
        jsTrim_getLast_not_ws (getFormattedQueryFromTokens cfg (tokenize q)) c hh
      simp [hws]

/-- Changing `trailingNewline` does not change a dispatch step. -/
theorem formatToken_set_trailingNewline (cfg : FormatConfig) (b : Bool)
    (tokens : List Token) (i : Nat) (st : FmtState) (t : Token) (q : List Char) :
    formatToken { cfg with trailingNewline := b } tokens i st t q
      = formatToken cfg tokens i st t q := rfl

/-- Changing `trailingNewline` does not change the token walk. -/
theorem runTokens_set_trailingNewline (cfg : FormatConfig) (b : Bool)
    (tokens : List Token) :
    ∀ (rest : List Token) (i : Nat) (st : FmtState) (q : List Char),
      runTokens { cfg with trailingNewline := b } tokens rest i st q
        = runTokens cfg tokens rest i st q := by
  intro rest
  induction rest with
  | nil =>
    intro i st q
    rfl
  | cons t rest ih =>
    intro i st q
    rw [show runTokens { cfg with trailingNewline := b } tokens (t :: rest) i st q
      = runTokens { cfg with trailingNewline := b } tokens rest (i + 1)
          (formatToken { cfg with trailingNewline := b } tokens i st t q).2
          (formatToken { cfg with trailingNewline := b } tokens i st t q).1
      from rfl]
    rw [formatToken_set_trailingNewline, ih]
    rfl

/-- A trailing newline is removed by `jsTrimEnd`. -/
theorem jsTrimEnd_append_newline (x : List Char) :
    jsTrimEnd (x ++ ['\n']) = jsTrimEnd x := by
  unfold jsTrimEnd
  rw [List.reverse_append]
  simp only [List.reverse_cons, List.reverse_nil, List.nil_append,
    List.singleton_append]
  rw [List.dropWhile_cons_of_pos (by decide)]

/-- C10: the `trailingNewline` flag has no effect on the public result —
the final `trim()` of `format` removes the appended newline — and the
returned string never ends with a newline character. -/
theorem c10_trailing_newline_no_effect (cfg : FormatConfig) (b1 b2 : Bool)
    (q : List Char) :
    Formatter.format { cfg with trailingNewline := b1 } q
      = Formatter.format { cfg with trailingNewline := b2 } q
    ∧ ((Formatter.format cfg q).getLast?.all (fun c => decide (c ≠ '\n'))) = true := by
  have key : ∀ b : Bool, Formatter.format { cfg with trailingNewline := b } q
      = jsTrim (jsTrimEnd
          (runTokens cfg (tokenize q) (tokenize q) 0 initState [])) := by
    intro b
    show jsTrim (getFormattedQueryFromTokens
      { cfg with trailingNewline := b } (tokenize q)) = _
    unfold getFormattedQueryFromTokens
    rw [runTokens_set_trailingNewline]
    cases b
    · rfl
    · show jsTrim (jsTrimEnd
          (runTokens cfg (tokenize q) (tokenize q) 0 initState []) ++ ['\n']) = _
      unfold jsTrim
      rw [jsTrimEnd_append_newline]
  refine ⟨(key b1).trans (key b2).symm, ?_⟩
  cases hh : (Formatter.format cfg q).getLast? with
  | none => rfl
  | some c =>
    have hws : isWs c = false :=
      jsTrim_getLast_not_ws (getFormattedQueryFromTokens cfg (tokenize q)) c hh
    have hne : c ≠ '\n' := by
      intro he
      subst he
      exact absurd hws (by decide)
    simp [hne]
